import Mathlib

/-!
Verification development for the go-replicator-service repository.

The embedding covers the capture trigger
(`sql/02_create_replication_trigger.sql`), the Publisher's event
construction and message-key selection (`internal/publisher/event.go`),
and the Consumer's applier and message loop
(`internal/consumer/applier.go`, the consumer event model).

Dynamic row payloads (Go `map[string]interface{}` / JSONB) are embedded
as association lists of string keys to a small JSON value type.  Go map
iteration order is unspecified; the list order plays that role and no
theorem depends on it beyond the column *sets* involved.  Database reads
performed by the applier (the `SELECT version ... WHERE id = ?` probe and
the processed-events ledger lookup) are passed in explicitly: the probe
as a function from table name and primary-key value to a result, the
ledger as the list of recorded event ids.  SQL statements issued by the
applier are reified as a `DML` datatype carrying exactly the column and
value lists the source builds.
-/

/-- A JSON-style dynamic value, the embedding of Go `interface{}` values
found in row payloads.  `vInt` stands for the numeric cases the source
handles (`float64`/`int64`/`int`, always integral row versions). -/
inductive Val where
  | vInt : Int → Val
  | vStr : String → Val
  | vBool : Bool → Val
  | vNull : Val
  | vDoc : List (String × Val) → Val

/-- A structured document: the embedding of Go `map[string]interface{}`
and PostgreSQL JSONB objects. -/
abbrev Doc := List (String × Val)

/-- Key lookup in a document (Go map indexing `data[key]`). -/
def docGet : Doc → String → Option Val
  | [], _ => none
  | (k, v) :: rest, key => if k = key then some v else docGet rest key

/-- Go `fmt.Sprintf s v` on a dynamic value (only the scalar cases matter
to any claim; nested documents never reach this function in the claims). -/
def valToString : Val → String
  | Val.vInt n => toString n
  | Val.vStr s => s
  | Val.vBool b => toString b
  | Val.vNull => "<nil>"
  | Val.vDoc _ => "map"

/-! ## Capture layer: sql/02_create_replication_trigger.sql -/

/-- The PostgreSQL session-level settings the trigger can read. -/
structure SessionState where
  session_replication_role : String
  application_name : String

/-- The trigger operation (`TG_OP`). -/
inductive TgOp where
  | tgInsert : TgOp
  | tgUpdate : TgOp
  | tgDelete : TgOp

/-- One row of the `replication_queue` outbox table, as inserted by the
trigger: `(table_name, operation, record_data)`. -/
structure OutboxRow where
  table_name : String
  operation : String
  record_data : Val

/-- Embedding of `generic_replication_trigger()` from
`sql/02_create_replication_trigger.sql`.  The result is the list of
outbox rows the trigger inserts for one fired DML.  The source suppresses
capture exactly when `current_setting(session_replication_role)` equals
`replica`; the `application_name` check at lines 24-26 of the source is
commented out and therefore absent here.  For UPDATE the source wraps
both images into one object under the keys `before` and `after`. -/
def generic_replication_trigger (s : SessionState) (tg_table_name : String)
    (op : TgOp) (oldRow newRow : Doc) : List OutboxRow :=
  if s.session_replication_role = "replica" then []
  else
    match op with
    | TgOp.tgInsert =>
        [{ table_name := tg_table_name, operation := "INSERT",
           record_data := Val.vDoc newRow }]
    | TgOp.tgUpdate =>
        [{ table_name := tg_table_name, operation := "UPDATE",
           record_data := Val.vDoc [("before", Val.vDoc oldRow), ("after", Val.vDoc newRow)] }]
    | TgOp.tgDelete =>
        [{ table_name := tg_table_name, operation := "DELETE",
           record_data := Val.vDoc oldRow }]

/-- The session state of a Consumer database connection as opened by
`database.Connect` (src/unnamed/part_004 lines 97-160): the DSN carries
`application_name=<cfg.ApplicationName>` when configured, and nothing in
the Go code ever sets `session_replication_role`, so that setting stays
at the PostgreSQL default value `origin`. -/
def consumerSessionState (applicationName : String) : SessionState :=
  { session_replication_role := "origin", application_name := applicationName }

/-! ## Publisher: internal/publisher/event.go -/

namespace publisher

/-- `publisher.SourceInfo`. -/
structure SourceInfo where
  contour : String
  database : String

/-- `publisher.ReplicationEvent`: the bus event document.  `before` and
`after` are `Option` because the Go fields are nil-able maps serialized
with `omitempty`. -/
structure ReplicationEvent where
  event_id : String
  source : SourceInfo
  table : String
  operation : String
  primary_key : Doc
  before : Option Doc
  after : Option Doc

/-- `publisher.NewReplicationEvent`.  The fresh UUID the source draws is
passed in as `freshEventID`.  The source initializes `Before`/`After` to
empty maps, copies `recordData["id"]` into the primary-key map when
present, then overwrites `Before`/`After` per operation: INSERT and
UPDATE set `After := recordData` and `Before := nil` (the UPDATE branch
carries a source comment admitting the pre-image is dropped); DELETE sets
`Before := recordData` and `After := nil`. -/
def NewReplicationEvent (contour database tableName operation : String)
    (recordData : Doc) (freshEventID : String) : ReplicationEvent :=
  let pk : Doc :=
    match docGet recordData "id" with
    | some v => [("id", v)]
    | none => []
  let ba : Option Doc × Option Doc :=
    match operation with
    | "INSERT" => (none, some recordData)
    | "UPDATE" => (none, some recordData)
    | "DELETE" => (some recordData, none)
    | _ => (some [], some [])
  { event_id := freshEventID,
    source := { contour := contour, database := database },
    table := tableName, operation := operation,
    primary_key := pk, before := ba.1, after := ba.2 }

/-- `ReplicationEvent.ExtractPartitionKey`: stringify `PrimaryKey["id"]`
when present, otherwise fall back to the event id. -/
def ReplicationEvent.ExtractPartitionKey (e : ReplicationEvent) : String :=
  match docGet e.primary_key "id" with
  | some v => valToString v
  | none => e.event_id

/-- `database.ReplicationQueue`: one outbox row as the Publisher reads
it.  The `primary_key_value` column exists on the Go model but no SQL in
the repository (in particular not the trigger) ever populates it, so on
trigger-produced rows it is the empty string. -/
structure ReplicationQueue where
  id : Int
  table : String
  operation : String
  record_data : Doc
  primary_key_value : String

/-- The message `Publisher.publishRecord` hands to the bus producer. -/
structure ProducedMessage where
  topic : String
  key : String
  value : ReplicationEvent

/-- `Publisher.publishRecord` (internal/publisher/event.go lines
247-288): build the event from the outbox row, pick the topic
`<table>_changes`, and use `record.PrimaryKeyValue` as the message key,
falling back to `ExtractPartitionKey` when that column is empty. -/
def publishRecord (contour database : String) (record : ReplicationQueue)
    (freshEventID : String) : ProducedMessage :=
  let event := NewReplicationEvent contour database record.table record.operation
      record.record_data freshEventID
  let topic := record.table ++ "_changes"
  let partitionKey :=
    if record.primary_key_value = "" then ReplicationEvent.ExtractPartitionKey event
    else record.primary_key_value
  { topic := topic, key := partitionKey, value := event }

end publisher

/-! ## Consumer: internal/consumer/applier.go and the consumer event model -/

namespace consumer

/-- `consumer.SourceInfo`. -/
structure SourceInfo where
  contour : String
  database : String

/-- `consumer.ReplicationEvent` as unmarshalled from the bus message
(src/unnamed/part_004 lines 8-18). -/
structure ReplicationEvent where
  event_id : String
  source : SourceInfo
  table : String
  operation : String
  primary_key : Doc
  before : Option Doc
  after : Option Doc

/-- `ReplicationEvent.GetPrimaryKeyValue`: `PrimaryKey["id"]`, or the Go
nil interface (here `none`) when absent. -/
def ReplicationEvent.GetPrimaryKeyValue (e : ReplicationEvent) : Option Val :=
  docGet e.primary_key "id"

/-- The payload `GetVersion` selects: `After` when non-nil, otherwise
`Before` (src/unnamed/part_004 lines 40-51). -/
def selectedData (e : ReplicationEvent) : Option Doc :=
  match e.after with
  | some d => some d
  | none => e.before

/-- `ReplicationEvent.GetVersion`: the numeric `version` field of the
selected payload, or 0 when the payload is missing, the key is absent,
or the value is not numeric. -/
def ReplicationEvent.GetVersion (e : ReplicationEvent) : Int :=
  match selectedData e with
  | none => 0
  | some d =>
    match docGet d "version" with
    | some (Val.vInt n) => n
    | _ => 0

/-- `consumer.Config` (the fields the applier and loop read). -/
structure Config where
  MyContour : String
  ConflictResolution : String

/-- Outcome of the applier probe
`SELECT version FROM <table> WHERE id = ?`: a row with that version, no
row, or a database error. -/
inductive ProbeResult where
  | found : Int → ProbeResult
  | notFound : ProbeResult
  | dbError : String → ProbeResult

/-- A SQL statement issued by the applier against a business table,
reified with the column and value lists the source builds:
`INSERT INTO t (cols) VALUES (vals)`,
`UPDATE t SET col = ? ... WHERE id = ?`, and
`DELETE FROM t WHERE id = ?`. -/
inductive DML where
  | insertRow : String → List String → List Val → DML
  | updateRow : String → List String → List Val → Option Val → DML
  | deleteRow : String → Option Val → DML

/-- `EventApplier.buildInsertSQL`: every key of the payload becomes a
column, every value a bound value. -/
def buildInsertSQL (data : Doc) : List String × List Val :=
  (data.map Prod.fst, data.map Prod.snd)

/-- `EventApplier.buildUpdateSQL`: one SET column per payload key,
skipping the `id` key, paired with the bound values. -/
def buildUpdateSQL : Doc → List String × List Val
  | [] => ([], [])
  | (k, v) :: rest =>
    if k = "id" then buildUpdateSQL rest
    else (k :: (buildUpdateSQL rest).1, v :: (buildUpdateSQL rest).2)

/-- `EventApplier.resolveConflict` (applier.go lines 213-256): the
conflict policy over `(existingVersion, incomingVersion)` when an INSERT
hits an existing row. -/
def resolveConflict (cfg : Config) (tableName : String) (primaryKey : Option Val)
    (existingVersion incomingVersion : Int) (data : Doc) : Except String (List DML) :=
  match cfg.ConflictResolution with
  | "last_write_wins" =>
    if incomingVersion > existingVersion then
      let su := buildUpdateSQL data
      Except.ok [DML.updateRow tableName su.1 su.2 primaryKey]
    else
      Except.ok []
  | "skip" => Except.ok []
  | "error" => Except.error "conflict: record already exists (policy=error)"
  | other => Except.error ("unknown conflict resolution strategy: " ++ other)

/-- `EventApplier.handleVersionConflict` (applier.go lines 258-284): the
policy when an UPDATE finds `existingVersion >= incomingVersion`. -/
def handleVersionConflict (cfg : Config) (tableName : String) (primaryKey : Option Val)
    (existingVersion incomingVersion : Int) : Except String (List DML) :=
  match cfg.ConflictResolution with
  | "last_write_wins" => Except.ok []
  | "skip" => Except.ok []
  | "error" => Except.error "version conflict (policy=error)"
  | other => Except.error ("unknown conflict resolution strategy: " ++ other)

/-- `EventApplier.applyInsert` (applier.go lines 42-101): require an
`after` payload, probe the target row by primary key, insert the full
post-image when absent, and hand an existing row to `resolveConflict`. -/
def applyInsert (cfg : Config) (probe : String → Option Val → ProbeResult)
    (event : ReplicationEvent) : Except String (List DML) :=
  match event.after with
  | none => Except.error "INSERT event must have after data"
  | some data =>
    let tableName := event.table
    let primaryKeyValue := ReplicationEvent.GetPrimaryKeyValue event
    let incomingVersion := ReplicationEvent.GetVersion event
    match probe tableName primaryKeyValue with
    | ProbeResult.dbError m => Except.error ("failed to check existing record: " ++ m)
    | ProbeResult.found existingVersion =>
        resolveConflict cfg tableName primaryKeyValue existingVersion incomingVersion data
    | ProbeResult.notFound =>
        let ci := buildInsertSQL data
        Except.ok [DML.insertRow tableName ci.1 ci.2]

/-- `EventApplier.applyUpdate` (applier.go lines 104-166): require an
`after` payload, probe the target row; when absent, fall through to
`applyInsert`; when present, skip via `handleVersionConflict` unless the
incoming version is strictly newer, in which case issue the UPDATE built
by `buildUpdateSQL`. -/
def applyUpdate (cfg : Config) (probe : String → Option Val → ProbeResult)
    (event : ReplicationEvent) : Except String (List DML) :=
  match event.after with
  | none => Except.error "UPDATE event must have after data"
  | some data =>
    let tableName := event.table
    let primaryKeyValue := ReplicationEvent.GetPrimaryKeyValue event
    let incomingVersion := ReplicationEvent.GetVersion event
    match probe tableName primaryKeyValue with
    | ProbeResult.notFound => applyInsert cfg probe event
    | ProbeResult.dbError m => Except.error ("failed to check existing record: " ++ m)
    | ProbeResult.found existingVersion =>
      if existingVersion ≥ incomingVersion then
        handleVersionConflict cfg tableName primaryKeyValue existingVersion incomingVersion
      else
        let su := buildUpdateSQL data
        Except.ok [DML.updateRow tableName su.1 su.2 primaryKeyValue]

/-- `EventApplier.applyDelete` (applier.go lines 169-210): no-op when the
row is absent, otherwise delete by primary key. -/
def applyDelete (cfg : Config) (probe : String → Option Val → ProbeResult)
    (event : ReplicationEvent) : Except String (List DML) :=
  let tableName := event.table
  let primaryKeyValue := ReplicationEvent.GetPrimaryKeyValue event
  match probe tableName primaryKeyValue with
  | ProbeResult.notFound => Except.ok []
  | ProbeResult.dbError m => Except.error ("failed to check existing record: " ++ m)
  | ProbeResult.found _ => Except.ok [DML.deleteRow tableName primaryKeyValue]

/-- `EventApplier.Apply` (applier.go lines 28-39): dispatch on the
operation string; anything but INSERT/UPDATE/DELETE is an error. -/
def Apply (cfg : Config) (probe : String → Option Val → ProbeResult)
    (event : ReplicationEvent) : Except String (List DML) :=
  match event.operation with
  | "INSERT" => applyInsert cfg probe event
  | "UPDATE" => applyUpdate cfg probe event
  | "DELETE" => applyDelete cfg probe event
  | other => Except.error ("unknown operation: " ++ other)

/-- Outcome of `Consumer.applyEvent` (applier.go lines 483-540): the
transaction is rolled back with a nil error on a ledger hit, committed
with the issued business DML plus the ledger insert otherwise, or rolled
back with an error. -/
inductive ApplyEventResult where
  | duplicateSkip : ApplyEventResult
  | committed : List DML → ApplyEventResult
  | failed : String → ApplyEventResult

/-- `Consumer.applyEvent`: check the processed-events ledger for
`event.EventID` first (hit means rollback and success with no DML), then
run the applier, then record the event id in the same transaction. -/
def applyEvent (cfg : Config) (ledger : List String)
    (probe : String → Option Val → ProbeResult) (event : ReplicationEvent) :
    ApplyEventResult :=
  if event.event_id ∈ ledger then ApplyEventResult.duplicateSkip
  else
    match Apply cfg probe event with
    | Except.error m => ApplyEventResult.failed ("failed to apply DML: " ++ m)
    | Except.ok dmls => ApplyEventResult.committed dmls

/-- The processed-events ledger after one `applyEvent` run: the event id
is recorded exactly when the transaction commits. -/
def ledgerAfter (ledger : List String) (event : ReplicationEvent) :
    ApplyEventResult → List String
  | ApplyEventResult.committed _ => event.event_id :: ledger
  | _ => ledger

/-- `Consumer.shouldProcess`: drop events from the Consumer's own
contour. -/
def shouldProcess (cfg : Config) (event : ReplicationEvent) : Bool :=
  if event.source.contour = cfg.MyContour then false else true

/-- The externally visible outcome of one `Consumer.processMessage` call
(applier.go lines 400-471): whether the bus message was committed
(acknowledged), whether `processMessage` returned an error (which makes
`Start` increment the failed counter), which counter the loop bumps, and
the business DML issued. -/
structure MsgOutcome where
  acked : Bool
  returnedError : Bool
  skipInc : Bool
  processInc : Bool
  dml : List DML

/-- `Consumer.processMessage` on one polled message, with `none` standing
for a payload `json.Unmarshal` rejects: parse failures are committed and
returned as errors; own-contour events are committed and counted as
skipped; an `applyEvent` failure is returned as an error with no commit;
success (including a ledger hit, which returns a nil error) is committed
and counted as processed. -/
def processMessage (cfg : Config) (ledger : List String)
    (probe : String → Option Val → ProbeResult) (msg : Option ReplicationEvent) :
    MsgOutcome :=
  match msg with
  | none =>
      { acked := true, returnedError := true, skipInc := false,
        processInc := false, dml := [] }
  | some event =>
      if shouldProcess cfg event = false then
        { acked := true, returnedError := false, skipInc := true,
          processInc := false, dml := [] }
      else
        match applyEvent cfg ledger probe event with
        | ApplyEventResult.failed _ =>
            { acked := false, returnedError := true, skipInc := false,
              processInc := false, dml := [] }
        | ApplyEventResult.duplicateSkip =>
            { acked := true, returnedError := false, skipInc := false,
              processInc := true, dml := [] }
        | ApplyEventResult.committed dmls =>
            { acked := true, returnedError := false, skipInc := false,
              processInc := true, dml := dmls }

end consumer

/-! ## Concrete fixtures used by witnesses and counterexamples -/

/-- A consumer configuration with the default conflict policy. -/
def cfgLww : consumer.Config :=
  { MyContour := "contour-a", ConflictResolution := "last_write_wins" }

/-- A probe over a database in which no target row exists. -/
def probeAbsent : String → Option Val → consumer.ProbeResult :=
  fun _ _ => consumer.ProbeResult.notFound

/-- A probe over a database in which the target row exists at version 1. -/
def probeFoundOne : String → Option Val → consumer.ProbeResult :=
  fun _ _ => consumer.ProbeResult.found 1

/-- A remote-origin INSERT event for `users` id 1 at version 1. -/
def evInsertUser : consumer.ReplicationEvent :=
  { event_id := "ev-ins-1",
    source := { contour := "contour-b", database := "db1" },
    table := "users", operation := "INSERT",
    primary_key := [("id", Val.vInt 1)],
    before := none,
    after := some [("id", Val.vInt 1), ("name", Val.vStr "John"), ("version", Val.vInt 1)] }

/-- A remote-origin UPDATE event for `users` id 7 at version 2. -/
def evUpdateUser : consumer.ReplicationEvent :=
  { event_id := "ev-upd-7",
    source := { contour := "contour-b", database := "db1" },
    table := "users", operation := "UPDATE",
    primary_key := [("id", Val.vInt 7)],
    before := none,
    after := some [("id", Val.vInt 7), ("name", Val.vStr "x"), ("version", Val.vInt 2)] }

/-- A remote-origin event with an operation outside INSERT/UPDATE/DELETE. -/
def evTruncateUser : consumer.ReplicationEvent :=
  { event_id := "ev-trunc-1",
    source := { contour := "contour-b", database := "db1" },
    table := "users", operation := "TRUNCATE",
    primary_key := [("id", Val.vInt 1)],
    before := none,
    after := some [("id", Val.vInt 1)] }

/-- A remote-origin event whose selected payload has no `version` key. -/
def evNoVersion : consumer.ReplicationEvent :=
  { event_id := "ev-nov-3",
    source := { contour := "contour-b", database := "db1" },
    table := "users", operation := "INSERT",
    primary_key := [("id", Val.vInt 3)],
    before := none,
    after := some [("id", Val.vInt 3)] }

/-! ## Claims -/

/-- Claim C1, evaluated on the code at its failing input.  A Consumer
connection carries the configurable session identity
`application_name = replicator_consumer` and the PostgreSQL default
`session_replication_role = origin` (`database.Connect` sets only the
former).  On such a connection the shipped trigger still writes one
outbox row for a local INSERT, because the trigger's only suppression
test is the superuser-only `session_replication_role = replica`; the
unprivileged `application_name` test is commented out in the source.
The second conjunct shows what the code actually keys on. -/
theorem C1_consumer_identity_insert_still_enqueues :
    generic_replication_trigger (consumerSessionState "replicator_consumer") "users"
      TgOp.tgInsert []
      [("id", Val.vInt 999), ("name", Val.vStr "Test"), ("version", Val.vInt 1)]
    = [{ table_name := "users", operation := "INSERT",
         record_data := Val.vDoc
           [("id", Val.vInt 999), ("name", Val.vStr "Test"), ("version", Val.vInt 1)] }]
    ∧ generic_replication_trigger
        { session_replication_role := "replica", application_name := "any_app" }
        "users" TgOp.tgInsert [] [("id", Val.vInt 999)] = [] :=
  ⟨rfl, rfl⟩

/-- Claim C2: when an INSERT event's primary-key value has no matching
row, `applyInsert` issues an INSERT carrying every column and value of
the `after` document; when a row exists at some version, the event is
handed to `resolveConflict` over `(existingVersion, incomingVersion)`. -/
theorem C2_applyInsert_full_postimage_or_conflict_policy
    (cfg : consumer.Config) (probe : String → Option Val → consumer.ProbeResult)
    (event : consumer.ReplicationEvent) (data : Doc)
    (hafter : event.after = some data) :
    (probe event.table event.GetPrimaryKeyValue = consumer.ProbeResult.notFound →
      consumer.applyInsert cfg probe event =
        Except.ok [consumer.DML.insertRow event.table (data.map Prod.fst) (data.map Prod.snd)]) ∧
    (∀ existingVersion : Int,
      probe event.table event.GetPrimaryKeyValue = consumer.ProbeResult.found existingVersion →
      consumer.applyInsert cfg probe event =
        consumer.resolveConflict cfg event.table event.GetPrimaryKeyValue existingVersion
          event.GetVersion data) := by
  constructor
  · intro hp
    simp [consumer.applyInsert, hafter, hp, consumer.buildInsertSQL]
  · intro v hp
    simp [consumer.applyInsert, hafter, hp]

/-- Witness for C2 at a concrete INSERT event on an empty table. -/
theorem C2_witness :
    consumer.applyInsert cfgLww probeAbsent evInsertUser =
      Except.ok [consumer.DML.insertRow "users" ["id", "name", "version"]
        [Val.vInt 1, Val.vStr "John", Val.vInt 1]] := by
  have h := C2_applyInsert_full_postimage_or_conflict_policy cfgLww probeAbsent evInsertUser
    [("id", Val.vInt 1), ("name", Val.vStr "John"), ("version", Val.vInt 1)] rfl
  exact (h.1 rfl).trans rfl

/-- Claim C5: an UPDATE event whose primary-key value has no matching
row is applied as an INSERT of the full post-image. -/
theorem C5_update_on_absent_row_inserts_postimage
    (cfg : consumer.Config) (probe : String → Option Val → consumer.ProbeResult)
    (event : consumer.ReplicationEvent) (data : Doc)
    (hafter : event.after = some data)
    (hprobe : probe event.table event.GetPrimaryKeyValue = consumer.ProbeResult.notFound) :
    consumer.applyUpdate cfg probe event =
      Except.ok [consumer.DML.insertRow event.table (data.map Prod.fst) (data.map Prod.snd)] := by
  simp [consumer.applyUpdate, consumer.applyInsert, hafter, hprobe, consumer.buildInsertSQL]

/-- Witness for C5 at a concrete UPDATE event on an empty table. -/
theorem C5_witness :
    consumer.applyUpdate cfgLww probeAbsent evUpdateUser =
      Except.ok [consumer.DML.insertRow "users" ["id", "name", "version"]
        [Val.vInt 7, Val.vStr "x", Val.vInt 2]] := by
  have h := C5_update_on_absent_row_inserts_postimage cfgLww probeAbsent evUpdateUser
    [("id", Val.vInt 7), ("name", Val.vStr "x"), ("version", Val.vInt 2)] rfl rfl
  exact h.trans rfl

/-- Claim C6, evaluated on the code.  `NewReplicationEvent` populates
the images per operation as the claim says for INSERT (post-image in
`after`) and DELETE (pre-image in `before`), but for UPDATE it sets
`before` to nil and stores the whole `record_data` document (the
trigger's wrapper holding both images) in `after`, so an UPDATE event
does not carry the pre-image in `before` as claimed. -/
theorem C6_publisher_update_event_drops_preimage :
    (publisher.NewReplicationEvent "contour-a" "db1" "users" "UPDATE"
      [("before", Val.vDoc [("id", Val.vInt 1), ("name", Val.vStr "old"), ("version", Val.vInt 1)]),
       ("after", Val.vDoc [("id", Val.vInt 1), ("name", Val.vStr "new"), ("version", Val.vInt 2)])]
      "ev-c6").before = none
    ∧ (publisher.NewReplicationEvent "contour-a" "db1" "users" "UPDATE"
        [("before", Val.vDoc [("id", Val.vInt 1), ("name", Val.vStr "old"), ("version", Val.vInt 1)]),
         ("after", Val.vDoc [("id", Val.vInt 1), ("name", Val.vStr "new"), ("version", Val.vInt 2)])]
        "ev-c6").after
      = some [("before", Val.vDoc [("id", Val.vInt 1), ("name", Val.vStr "old"), ("version", Val.vInt 1)]),
              ("after", Val.vDoc [("id", Val.vInt 1), ("name", Val.vStr "new"), ("version", Val.vInt 2)])]
    ∧ (publisher.NewReplicationEvent "contour-a" "db1" "users" "INSERT"
        [("id", Val.vInt 1), ("name", Val.vStr "John"), ("version", Val.vInt 1)] "ev-c6b").after
      = some [("id", Val.vInt 1), ("name", Val.vStr "John"), ("version", Val.vInt 1)]
    ∧ (publisher.NewReplicationEvent "contour-a" "db1" "users" "DELETE"
        [("id", Val.vInt 1), ("name", Val.vStr "John"), ("version", Val.vInt 1)] "ev-c6c").before
      = some [("id", Val.vInt 1), ("name", Val.vStr "John"), ("version", Val.vInt 1)] :=
  ⟨rfl, rfl, rfl, rfl⟩

/-- Claim C7, evaluated on the code.  For a trigger-produced UPDATE
outbox row the `primary_key_value` column is empty and `record_data` is
the `before`/`after` wrapper with no top-level `id`, so
`publishRecord` falls back to `ExtractPartitionKey`, which finds no
primary key and keys the message by the fresh event UUID instead of the
row's primary-key value "1". -/
theorem C7_update_message_key_is_event_id_not_pk :
    (publisher.publishRecord "contour-a" "db1"
      { id := 41, table := "users", operation := "UPDATE",
        record_data :=
          [("before", Val.vDoc [("id", Val.vInt 1), ("version", Val.vInt 1)]),
           ("after", Val.vDoc [("id", Val.vInt 1), ("version", Val.vInt 2)])],
        primary_key_value := "" }
      "8f14e45f-0000-4000-8000-000000000000").key
    = "8f14e45f-0000-4000-8000-000000000000"
    ∧ ("8f14e45f-0000-4000-8000-000000000000" : String) ≠ "1"
    ∧ (publisher.publishRecord "contour-a" "db1"
        { id := 40, table := "users", operation := "INSERT",
          record_data := [("id", Val.vInt 1), ("version", Val.vInt 1)],
          primary_key_value := "" }
        "9f14e45f-0000-4000-8000-000000000000").key = "1" :=
  ⟨rfl, by decide, rfl⟩

/-- Claim C3: after a successful apply of an event id not yet in the
ledger, exactly one ledger row for that id exists, and a second delivery
of the same event hits the ledger check, rolls back with no business
DML, and is acknowledged by the message loop. -/
theorem C3_applyEvent_idempotent
    (cfg : consumer.Config) (probe : String → Option Val → consumer.ProbeResult)
    (event : consumer.ReplicationEvent) (ledger : List String) (dmls : List consumer.DML)
    (hcount : ledger.count event.event_id = 0)
    (hrun : consumer.applyEvent cfg ledger probe event
      = consumer.ApplyEventResult.committed dmls) :
    (consumer.ledgerAfter ledger event
        (consumer.ApplyEventResult.committed dmls)).count event.event_id = 1 ∧
    consumer.applyEvent cfg
        (consumer.ledgerAfter ledger event (consumer.ApplyEventResult.committed dmls))
        probe event = consumer.ApplyEventResult.duplicateSkip ∧
    (consumer.processMessage cfg
        (consumer.ledgerAfter ledger event (consumer.ApplyEventResult.committed dmls))
        probe (some event)).dml = [] ∧
    (consumer.processMessage cfg
        (consumer.ledgerAfter ledger event (consumer.ApplyEventResult.committed dmls))
        probe (some event)).acked = true := by
  have hla : consumer.ledgerAfter ledger event (consumer.ApplyEventResult.committed dmls)
      = event.event_id :: ledger := rfl
  have h2 : consumer.applyEvent cfg (event.event_id :: ledger) probe event
      = consumer.ApplyEventResult.duplicateSkip := by
    unfold consumer.applyEvent
    rw [if_pos (List.mem_cons_self _ _)]
  refine ⟨?_, ?_, ?_, ?_⟩
  · rw [hla, List.count_cons_self, hcount]
  · rw [hla]
    exact h2
  · rw [hla]
    by_cases hs : consumer.shouldProcess cfg event = false
    · simp [consumer.processMessage, hs]
    · simp [consumer.processMessage, hs, h2]
  · rw [hla]
    by_cases hs : consumer.shouldProcess cfg event = false
    · simp [consumer.processMessage, hs]
    · simp [consumer.processMessage, hs, h2]

/-- Witness for C3: the INSERT event applied once on an empty ledger,
then delivered a second time, is skipped via the ledger. -/
theorem C3_witness :
    consumer.applyEvent cfgLww
      (consumer.ledgerAfter [] evInsertUser (consumer.ApplyEventResult.committed
        [consumer.DML.insertRow "users" ["id", "name", "version"]
          [Val.vInt 1, Val.vStr "John", Val.vInt 1]]))
      probeAbsent evInsertUser = consumer.ApplyEventResult.duplicateSkip :=
  (C3_applyEvent_idempotent cfgLww probeAbsent evInsertUser []
    [consumer.DML.insertRow "users" ["id", "name", "version"]
      [Val.vInt 1, Val.vStr "John", Val.vInt 1]] rfl rfl).2.1

/-- Claim C4: under the `last_write_wins` policy, `resolveConflict`
applies the incoming post-image exactly when the incoming version is
strictly greater than the existing one, and `applyUpdate` on an existing
row writes the post-image if and only if the existing version is
strictly below the incoming version; equal versions are skipped. -/
theorem C4_last_write_wins_applies_iff_newer
    (cfg : consumer.Config) (probe : String → Option Val → consumer.ProbeResult)
    (event : consumer.ReplicationEvent) (tableName : String) (pk : Option Val)
    (existingVersion : Int) (data : Doc)
    (hpolicy : cfg.ConflictResolution = "last_write_wins")
    (hafter : event.after = some data)
    (hprobe : probe event.table event.GetPrimaryKeyValue
      = consumer.ProbeResult.found existingVersion) :
    (∀ incomingVersion : Int,
      consumer.resolveConflict cfg tableName pk existingVersion incomingVersion data =
        Except.ok (if incomingVersion > existingVersion then
          [consumer.DML.updateRow tableName (consumer.buildUpdateSQL data).1
            (consumer.buildUpdateSQL data).2 pk]
        else [])) ∧
    consumer.applyUpdate cfg probe event =
      Except.ok (if existingVersion < event.GetVersion then
        [consumer.DML.updateRow event.table (consumer.buildUpdateSQL data).1
          (consumer.buildUpdateSQL data).2 event.GetPrimaryKeyValue]
      else []) := by
  constructor
  · intro incomingVersion
    by_cases h : incomingVersion > existingVersion
    · simp [consumer.resolveConflict, hpolicy, h]
    · simp [consumer.resolveConflict, hpolicy, h]
  · simp only [consumer.applyUpdate, hafter, hprobe]
    by_cases h : existingVersion ≥ event.GetVersion
    · rw [if_pos h]
      have h2 : ¬ existingVersion < event.GetVersion := not_lt.mpr h
      simp [consumer.handleVersionConflict, hpolicy, h2]
    · rw [if_neg h]
      have h2 : existingVersion < event.GetVersion := lt_of_not_ge h
      simp [h2]

/-- Witness for C4: existing version 1 against incoming version 2 under
`last_write_wins` writes the post-image without the `id` column. -/
theorem C4_witness :
    consumer.applyUpdate cfgLww probeFoundOne evUpdateUser =
      Except.ok [consumer.DML.updateRow "users" ["name", "version"]
        [Val.vStr "x", Val.vInt 2] (some (Val.vInt 7))] := by
  have h := C4_last_write_wins_applies_iff_newer cfgLww probeFoundOne evUpdateUser
    "users" (some (Val.vInt 7)) 1
    [("id", Val.vInt 7), ("name", Val.vStr "x"), ("version", Val.vInt 2)] rfl rfl rfl
  exact h.2.trans rfl

/-- Claim C8 fails on the code: a parseable event with an operation
outside INSERT/UPDATE/DELETE is NOT acknowledged — `processMessage`
returns the apply error without committing the message, so the bus will
redeliver it (only unparseable payloads are committed before the error
return). -/
theorem C8_counterexample_unknown_op_not_acked :
    (consumer.processMessage cfgLww [] probeAbsent (some evTruncateUser)).acked = false ∧
    (consumer.processMessage cfgLww [] probeAbsent (some evTruncateUser)).returnedError = true :=
  ⟨rfl, rfl⟩

/-- Claim C8 as amended: on a parseable remote-origin event whose
operation is not INSERT, UPDATE or DELETE and whose id is not in the
ledger, the Consumer fails the message (the failed counter increments)
without acknowledging it and without issuing any business DML. -/
theorem C8_unknown_operation_fails_without_ack
    (cfg : consumer.Config) (ledger : List String)
    (probe : String → Option Val → consumer.ProbeResult) (event : consumer.ReplicationEvent)
    (h1 : event.operation ≠ "INSERT") (h2 : event.operation ≠ "UPDATE")
    (h3 : event.operation ≠ "DELETE")
    (hsrc : event.source.contour ≠ cfg.MyContour)
    (hled : event.event_id ∉ ledger) :
    consumer.processMessage cfg ledger probe (some event) =
      { acked := false, returnedError := true, skipInc := false,
        processInc := false, dml := [] } := by
  have happ : consumer.Apply cfg probe event =
      Except.error ("unknown operation: " ++ event.operation) := by
    unfold consumer.Apply
    split <;> simp_all
  have hsp : ¬ (consumer.shouldProcess cfg event = false) := by
    unfold consumer.shouldProcess
    rw [if_neg hsrc]
    simp
  have hae : consumer.applyEvent cfg ledger probe event =
      consumer.ApplyEventResult.failed
        ("failed to apply DML: " ++ ("unknown operation: " ++ event.operation)) := by
    unfold consumer.applyEvent
    rw [if_neg hled, happ]
  simp [consumer.processMessage, hsp, hae]

/-- Witness for the amended C8 at the concrete TRUNCATE event. -/
theorem C8_witness :
    consumer.processMessage cfgLww [] probeAbsent (some evTruncateUser) =
      { acked := false, returnedError := true, skipInc := false,
        processInc := false, dml := [] } :=
  C8_unknown_operation_fails_without_ack cfgLww [] probeAbsent evTruncateUser
    (by decide) (by decide) (by decide) (by decide) (by decide)

/-- True when the payload carries a numeric `version` field (the cases
`GetVersion` reads). -/
def hasNumericVersion (d : Doc) : Bool :=
  match docGet d "version" with
  | some (Val.vInt _) => true
  | _ => false

/-- Claim C9: when the payload `GetVersion` selects (`after` when
present, otherwise `before`) is missing or lacks a numeric `version`
field, `GetVersion` returns 0, and consequently under `last_write_wins`
such an event never overwrites an existing row (whose stored version is
nonnegative): the conflict is resolved as a skip. -/
theorem C9_missing_version_yields_zero_and_never_overwrites
    (e : consumer.ReplicationEvent)
    (h : ∀ d : Doc, consumer.selectedData e = some d → hasNumericVersion d = false) :
    e.GetVersion = 0 ∧
    ∀ (cfg : consumer.Config) (tableName : String) (pk : Option Val)
      (existingVersion : Int) (data : Doc),
      cfg.ConflictResolution = "last_write_wins" → 0 ≤ existingVersion →
      consumer.resolveConflict cfg tableName pk existingVersion e.GetVersion data =
        Except.ok [] := by
  have hv : e.GetVersion = 0 := by
    cases hsel : consumer.selectedData e with
    | none =>
      unfold consumer.ReplicationEvent.GetVersion
      rw [hsel]
    | some d =>
      have hd := h d hsel
      have hstep : e.GetVersion =
          (match docGet d "version" with
            | some (Val.vInt n) => n
            | _ => (0:Int)) := by
        unfold consumer.ReplicationEvent.GetVersion
        rw [hsel]
      rw [hstep]
      cases hg : docGet d "version" with
      | none => rfl
      | some v =>
        cases v with
        | vInt n =>
          exfalso
          unfold hasNumericVersion at hd
          rw [hg] at hd
          simp at hd
        | vStr s => rfl
        | vBool b => rfl
        | vNull => rfl
        | vDoc l => rfl
  refine ⟨hv, ?_⟩
  intro cfg tableName pk existingVersion data hpolicy hnonneg
  rw [hv]
  have hneg : ¬ ((0:Int) > existingVersion) := by omega
  simp [consumer.resolveConflict, hpolicy, hneg]

/-- Witness for C9: an event whose payload has no `version` key yields
incoming version 0 and is skipped against an existing row at version 5. -/
theorem C9_witness :
    evNoVersion.GetVersion = 0 ∧
    consumer.resolveConflict cfgLww "users" (some (Val.vInt 3)) 5 evNoVersion.GetVersion
      [("id", Val.vInt 3), ("name", Val.vStr "n")] = Except.ok [] := by
  have hh : ∀ d : Doc, consumer.selectedData evNoVersion = some d →
      hasNumericVersion d = false := by
    intro d hd
    simp [consumer.selectedData, evNoVersion] at hd
    subst hd
    rfl
  have h := C9_missing_version_yields_zero_and_never_overwrites evNoVersion hh
  exact ⟨h.1, h.2 cfgLww "users" (some (Val.vInt 3)) 5
    [("id", Val.vInt 3), ("name", Val.vStr "n")] rfl (by omega)⟩

/-- The frame property over issued statements: an UPDATE never names the
`id` column in its SET clause; other statements are unconstrained. -/
def noIdInSet : consumer.DML → Prop
  | consumer.DML.updateRow _ setCols _ _ => "id" ∉ setCols
  | _ => True

/-- `buildUpdateSQL` filters the `id` key out of the SET columns. -/
theorem buildUpdateSQL_excludes_id (data : Doc) :
    "id" ∉ (consumer.buildUpdateSQL data).1 := by
  induction data with
  | nil => simp [consumer.buildUpdateSQL]
  | cons kv rest ih =>
    obtain ⟨k, v⟩ := kv
    by_cases hk : k = "id"
    · simpa [consumer.buildUpdateSQL, hk] using ih
    · simp only [consumer.buildUpdateSQL, if_neg hk]
      intro hmem
      rcases List.mem_cons.mp hmem with h | h
      · exact hk h.symm
      · exact ih h

/-- Every statement `resolveConflict` issues satisfies the frame
property. -/
theorem resolveConflict_noIdInSet
    (cfg : consumer.Config) (tableName : String) (pk : Option Val)
    (existingVersion incomingVersion : Int) (data : Doc) (dmls : List consumer.DML)
    (h : consumer.resolveConflict cfg tableName pk existingVersion incomingVersion data
      = Except.ok dmls) :
    ∀ d ∈ dmls, noIdInSet d := by
  unfold consumer.resolveConflict at h
  split at h
  · split at h
    · rw [Except.ok.injEq] at h
      subst h
      intro d hd
      rw [List.mem_singleton] at hd
      subst hd
      exact buildUpdateSQL_excludes_id data
    · rw [Except.ok.injEq] at h
      subst h
      intro d hd
      exact absurd hd (List.not_mem_nil d)
  · rw [Except.ok.injEq] at h
    subst h
    intro d hd
    exact absurd hd (List.not_mem_nil d)
  · exact absurd h (by simp)
  · exact absurd h (by simp)

/-- `handleVersionConflict` never issues a statement when it succeeds. -/
theorem handleVersionConflict_ok_empty
    (cfg : consumer.Config) (tableName : String) (pk : Option Val)
    (existingVersion incomingVersion : Int) (dmls : List consumer.DML)
    (h : consumer.handleVersionConflict cfg tableName pk existingVersion incomingVersion
      = Except.ok dmls) : dmls = [] := by
  unfold consumer.handleVersionConflict at h
  split at h <;> simp_all

/-- Every statement `applyInsert` issues satisfies the frame property. -/
theorem applyInsert_noIdInSet
    (cfg : consumer.Config) (probe : String → Option Val → consumer.ProbeResult)
    (event : consumer.ReplicationEvent) (dmls : List consumer.DML)
    (h : consumer.applyInsert cfg probe event = Except.ok dmls) :
    ∀ d ∈ dmls, noIdInSet d := by
  unfold consumer.applyInsert at h
  split at h
  · exact absurd h (by simp)
  · simp only [] at h
    split at h
    · exact absurd h (by simp)
    · exact resolveConflict_noIdInSet _ _ _ _ _ _ _ h
    · rw [Except.ok.injEq] at h
      subst h
      intro d hd
      rw [List.mem_singleton] at hd
      subst hd
      trivial

/-- Every statement `applyUpdate` issues satisfies the frame property. -/
theorem applyUpdate_noIdInSet
    (cfg : consumer.Config) (probe : String → Option Val → consumer.ProbeResult)
    (event : consumer.ReplicationEvent) (dmls : List consumer.DML)
    (h : consumer.applyUpdate cfg probe event = Except.ok dmls) :
    ∀ d ∈ dmls, noIdInSet d := by
  unfold consumer.applyUpdate at h
  split at h
  · exact absurd h (by simp)
  · rename_i data hdata
    simp only [] at h
    split at h
    · exact applyInsert_noIdInSet _ _ _ _ h
    · exact absurd h (by simp)
    · split at h
      · have := handleVersionConflict_ok_empty _ _ _ _ _ _ h
        subst this
        intro d hd
        exact absurd hd (List.not_mem_nil d)
      · rw [Except.ok.injEq] at h
        subst h
        intro d hd
        rw [List.mem_singleton] at hd
        subst hd
        exact buildUpdateSQL_excludes_id data

/-- Every statement `applyDelete` issues satisfies the frame property. -/
theorem applyDelete_noIdInSet
    (cfg : consumer.Config) (probe : String → Option Val → consumer.ProbeResult)
    (event : consumer.ReplicationEvent) (dmls : List consumer.DML)
    (h : consumer.applyDelete cfg probe event = Except.ok dmls) :
    ∀ d ∈ dmls, noIdInSet d := by
  unfold consumer.applyDelete at h
  simp only [] at h
  split at h
  · rw [Except.ok.injEq] at h
    subst h
    intro d hd
    exact absurd hd (List.not_mem_nil d)
  · exact absurd h (by simp)
  · rw [Except.ok.injEq] at h
    subst h
    intro d hd
    rw [List.mem_singleton] at hd
    subst hd
    trivial

/-- Claim C10: every UPDATE statement the applier issues — on the
version-checked UPDATE path and on the conflict-resolution overwrite
alike — excludes the `id` column from its SET clause, so an applied
event never changes the target row's primary-key column. -/
theorem C10_apply_never_updates_id_column
    (cfg : consumer.Config) (probe : String → Option Val → consumer.ProbeResult)
    (event : consumer.ReplicationEvent) (dmls : List consumer.DML)
    (h : consumer.Apply cfg probe event = Except.ok dmls) :
    ∀ d ∈ dmls, noIdInSet d := by
  unfold consumer.Apply at h
  split at h
  · exact applyInsert_noIdInSet _ _ _ _ h
  · exact applyUpdate_noIdInSet _ _ _ _ h
  · exact applyDelete_noIdInSet _ _ _ _ h
  · exact absurd h (by simp)

/-- Witness for C10: the concrete UPDATE the applier issues for the
version-2 event over an existing version-1 row omits the `id` column. -/
theorem C10_witness :
    noIdInSet (consumer.DML.updateRow "users" ["name", "version"]
      [Val.vStr "x", Val.vInt 2] (some (Val.vInt 7))) :=
  C10_apply_never_updates_id_column cfgLww probeFoundOne evUpdateUser
    [consumer.DML.updateRow "users" ["name", "version"]
      [Val.vStr "x", Val.vInt 2] (some (Val.vInt 7))] rfl
    _ (List.mem_singleton.mpr rfl)
